import Mathlib

/-!
Verification of the itowns tiled raster streaming / level-of-detail pipeline.

This file shallowly embeds the core of the pipeline:

* `packages/Main/src/Renderer/RasterTile.ts` — per-(node, layer) texture
  holder: `shouldWriteTextureAtIndex`, `setTexture`, `setTextures`,
  `initFromParent`, `sortBestParentTextures`, `dispose`;
* `packages/Main/src/Layer/RasterLayer.ts` (`Layer.getData`) — cache
  deduplication of loads;
* `packages/Main/src/Converter/Feature2Texture.ts` —
  `updateLayeredMaterialNodeImagery`, `buildCommand`,
  `refinementCommandCancellationFn`;
* `src/Core/Geographic/TileGrid.ts` — `getInfoTms`, `getCountTiles`,
  `tiledCovering`;
* `packages/Main/src/Utils/ElevationTextureUtils.ts` —
  `checkNodeElevationTextureValidity`, `insertSignificantValuesFromParent`,
  `computeMinMaxElevation` and its helpers.

Modelling conventions: JS numbers are modelled by `Int`/`ℚ` (with JS
`Infinity` and `NaN` represented explicitly where they can actually arise);
JS `undefined`/`null` by `Option`; a JS expression that would throw a
`TypeError` is modelled by `Except Unit`.  Geometry that lives outside the
repository sources (the `@itowns/geographic` `Extent`/`Tile` classes) is
abstracted by opaque-to-the-model operation records, or modelled from the
specification where the claims need it (marked `Modelled from the spec`).
-/

-- Core `Rat` arithmetic is `@[irreducible]`; re-expose it so that concrete
-- counterexamples and witnesses evaluate by `decide`.
unseal Rat.mul Rat.inv Rat.add Rat.sub

namespace Itowns

/-! ### Generic helpers: JS array semantics and a stable comparator sort -/

/-- JS read `a[i]` on an array of nullable values: out-of-range reads yield
`undefined`, which like `null` is modelled by `none`. -/
def readSlot {α : Type} (l : List (Option α)) (i : Nat) : Option α :=
  l.getD i none

/-- JS write `a[i] = v`: assigning past the end pads the array with holes. -/
def writeSlot {α : Type} (l : List (Option α)) (i : Nat) (v : Option α) :
    List (Option α) :=
  if i < l.length then l.set i v
  else l ++ List.replicate (i - l.length) none ++ [v]

/-- Stable insertion of `x` into `l` guided by a JS three-way comparator:
`x` is placed before the first element `y` with `cmp x y < 0`, after all
elements comparing less-or-equal — the placement a stable
`Array.prototype.toSorted` performs for consistent comparators. -/
def insertCmp {α : Type} (cmp : α → α → Int) (x : α) : List α → List α
  | [] => [x]
  | y :: ys => if cmp x y < 0 then x :: y :: ys else y :: insertCmp cmp x ys

/-- Stable comparator sort (insertion sort), modelling `toSorted`. -/
def sortCmp {α : Type} (cmp : α → α → Int) (l : List α) : List α :=
  l.foldl (fun acc x => insertCmp cmp x acc) []

theorem mem_insertCmp {α : Type} (cmp : α → α → Int) (x : α) (l : List α)
    (a : α) : a ∈ insertCmp cmp x l ↔ a = x ∨ a ∈ l := by
  induction l with
  | nil => simp [insertCmp]
  | cons y ys ih =>
    simp only [insertCmp]
    split
    · simp [List.mem_cons]
    · simp only [List.mem_cons, ih]
      tauto

theorem mem_sortCmp {α : Type} (cmp : α → α → Int) (l : List α) (a : α) :
    a ∈ sortCmp cmp l ↔ a ∈ l := by
  suffices h : ∀ acc : List α,
      a ∈ l.foldl (fun acc x => insertCmp cmp x acc) acc ↔ a ∈ acc ∨ a ∈ l by
    simpa [sortCmp] using h []
  induction l with
  | nil => simp
  | cons y ys ih =>
    intro acc
    simp only [List.foldl_cons, ih, mem_insertCmp, List.mem_cons]
    tauto

/-- Pairwise ordering of a stable comparator insertion, for elements
satisfying an invariant `P` under which the comparator is consistent. -/
theorem pairwise_insertCmp {α : Type} (cmp : α → α → Int) (P : α → Prop)
    (hflip : ∀ a b, P a → P b → ¬cmp a b < 0 → cmp b a ≤ 0)
    (x : α) (l : List α) (hx : P x) (hl : ∀ y ∈ l, P y)
    (htr : ∀ a b c, P a → P b → P c → cmp a b ≤ 0 → cmp b c ≤ 0 → cmp a c ≤ 0)
    (hp : l.Pairwise (fun a b => cmp a b ≤ 0)) :
    (insertCmp cmp x l).Pairwise (fun a b => cmp a b ≤ 0) := by
  induction l with
  | nil => simp [insertCmp]
  | cons y ys ih =>
    rw [List.pairwise_cons] at hp
    simp only [insertCmp]
    split
    · rename_i hlt
      refine List.Pairwise.cons ?_ (List.Pairwise.cons hp.1 hp.2)
      intro z hz
      rcases List.mem_cons.mp hz with rfl | hz
      · exact le_of_lt hlt
      · exact htr x y z hx (hl y (by simp)) (hl z (by simp [hz]))
          (le_of_lt hlt) (hp.1 z hz)
    · rename_i hge
      refine List.Pairwise.cons ?_ (ih (fun z hz => hl z (by simp [hz])) hp.2)
      intro z hz
      rcases (mem_insertCmp cmp x ys z).mp hz with rfl | hz
      · exact hflip z y hx (hl y (by simp)) hge
      · exact hp.1 z hz

/-- Pairwise ordering of the stable comparator sort under consistency. -/
theorem pairwise_sortCmp {α : Type} (cmp : α → α → Int) (P : α → Prop)
    (hflip : ∀ a b, P a → P b → ¬cmp a b < 0 → cmp b a ≤ 0)
    (htr : ∀ a b c, P a → P b → P c → cmp a b ≤ 0 → cmp b c ≤ 0 → cmp a c ≤ 0)
    (l : List α) (hl : ∀ y ∈ l, P y) :
    (sortCmp cmp l).Pairwise (fun a b => cmp a b ≤ 0) := by
  suffices h : ∀ (m acc : List α), (∀ y ∈ m, P y) → (∀ y ∈ acc, P y) →
      acc.Pairwise (fun a b => cmp a b ≤ 0) →
      (m.foldl (fun acc x => insertCmp cmp x acc) acc).Pairwise
        (fun a b => cmp a b ≤ 0) by
    exact h l [] hl (by simp) (by simp)
  intro m
  induction m with
  | nil =>
    intro acc _ _ hacc
    simpa using hacc
  | cons y ys ih =>
    intro acc hmP haccP haccPW
    simp only [List.foldl_cons]
    refine ih _ (fun z hz => hmP z (by simp [hz])) (fun z hz => ?_) ?_
    · rcases (mem_insertCmp cmp y acc z).mp hz with rfl | hz
      · exact hmP z (by simp)
      · exact haccP z hz
    · exact pairwise_insertCmp cmp P hflip y acc (hmP y (by simp)) haccP htr
        haccPW

/-- In a pairwise-ordered list, the first element satisfying a predicate is
related to every later element satisfying it. -/
theorem find?_first {α : Type} (R : α → α → Prop) (p : α → Bool) (c : α) :
    ∀ l : List α, l.Pairwise R → l.find? p = some c →
      ∀ u ∈ l, p u = true → c = u ∨ R c u := by
  intro l
  induction l with
  | nil => intro _ h; simp [List.find?] at h
  | cons x xs ih =>
    intro hpw hfind u hu hpu
    rw [List.pairwise_cons] at hpw
    rcases hx : p x with hfalse | htrue
    · rw [List.find?_cons, hx] at hfind
      rcases List.mem_cons.mp hu with rfl | hu
      · rw [hpu] at hx; cases hx
      · exact ih hpw.2 hfind u hu hpu
    · rw [List.find?_cons, hx] at hfind
      cases hfind
      rcases List.mem_cons.mp hu with rfl | hu
      · exact Or.inl rfl
      · exact Or.inr (hpw.1 u hu)

/-! ### RasterTile.ts — data model

Source: `packages/Main/src/Renderer/RasterTile.ts`.  The geometry classes
(`Tile`/`Extent` of the `@itowns/geographic` package) are not part of the
sources; a tile extent is abstracted to its `zoom` plus an identity, and the
geometric operations `isInside` / `offsetToParent` are abstract parameters
(`GeoOps`) — every theorem below holds for an arbitrary interpretation. -/

/-- A tile extent as seen by `RasterTile`: its `zoom` and an identity. -/
structure Tile where
  zoom : Int
  uid : Nat
deriving DecidableEq

/-- THREE.Vector4 used as an offset/scale ("pitch"). -/
structure Pitch where
  x : ℚ
  y : ℚ
  z : ℚ
  w : ℚ
deriving DecidableEq

/-- THREE.Texture as used by RasterTile.ts: the `isTexture` validity flag and
the `extent` dynamically attached by parsers (possibly absent).  A no-data
placeholder (an object with `isTexture: false` and an extent) is a `some`
texture with `isTexture = false`; JS `null` / `undefined` array entries are
modelled by `Option` at use sites. -/
structure Texture where
  isTexture : Bool
  extent : Option Tile
deriving DecidableEq

/-- Abstracted extent geometry (implemented outside the repo sources). -/
structure GeoOps where
  isInside : Tile → Tile → Bool
  offsetToParent : Tile → Tile → Pitch

/-- `export const EMPTY_TEXTURE_ZOOM = -1`. -/
def EMPTY_TEXTURE_ZOOM : Int := -1

/-- The mutable state of a `RasterTile` holder. -/
structure RasterTile where
  textures : List (Option Texture)
  offsetScales : List (Option Pitch)
  level : Int
  needsUpdate : Bool
deriving DecidableEq

/-- Holder state right after the constructor ran. -/
def freshRasterTile : RasterTile :=
  { textures := [], offsetScales := [], level := EMPTY_TEXTURE_ZOOM,
    needsUpdate := false }

namespace RasterTile

/-- `shouldWriteTextureAtIndex(index, texture)`:
`!this.textures[index] || texture && texture.isTexture`. -/
def shouldWriteTextureAtIndex (h : RasterTile) (index : Nat)
    (texture : Option Texture) : Bool :=
  (readSlot h.textures index).isNone ||
    (match texture with
     | some t => t.isTexture
     | none => false)

/-- `setTexture(index, texture, offsetScale)`: when the write is allowed,
updates `level` from the texture's extent (if any), stores
`texture || null` and the offset/scale, and flags `needsUpdate`. -/
def setTexture (h : RasterTile) (index : Nat) (texture : Option Texture)
    (offsetScale : Option Pitch) : RasterTile :=
  if h.shouldWriteTextureAtIndex index texture then
    { textures := writeSlot h.textures index texture
      offsetScales := writeSlot h.offsetScales index offsetScale
      level :=
        match texture with
        | some t =>
          match t.extent with
          | some e => e.zoom
          | none => h.level
        | none => h.level
      needsUpdate := true }
  else h

/-- `disposeAtIndexes(indexes)` releases GPU textures (no holder data
changes) and flags `needsUpdate`. -/
def disposeAtIndexes (h : RasterTile) : RasterTile :=
  { h with needsUpdate := true }

/-- `dispose()`: releases all slots (via `disposeAtIndexes`, which sets
`needsUpdate`), then clears `textures`, `offsetScales` and resets `level` to
the empty sentinel.  Event-listener bookkeeping has no model content. -/
def dispose (h : RasterTile) : RasterTile :=
  { textures := [], offsetScales := [], level := EMPTY_TEXTURE_ZOOM,
    needsUpdate := true }

/-- The `validTextureIndexes` computed by `disposeRedrawnTextures`:
`newTextures.map((texture, index) => shouldWrite(index, texture) ? index : -1)
.filter(index => index !== -1)`. -/
def validTextureIndexes (h : RasterTile) (newTextures : List (Option Texture)) :
    List Int :=
  ((newTextures.enum.map
      (fun p => if h.shouldWriteTextureAtIndex p.1 p.2 then (p.1 : Int) else -1))
    ).filter (fun i => i ≠ -1)

/-- `disposeRedrawnTextures(newTextures)`. -/
def disposeRedrawnTextures (h : RasterTile)
    (newTextures : List (Option Texture)) : RasterTile :=
  if (h.validTextureIndexes newTextures).length = newTextures.length then
    h.dispose
  else
    h.disposeAtIndexes

/-- A sequence of `setTexture(index, texture, offsetScale)` calls. -/
def applySets (h : RasterTile) :
    List (Nat × Option Texture × Option Pitch) → RasterTile
  | [] => h
  | c :: cs => applySets (h.setTexture c.1 c.2.1 c.2.2) cs

/-- The per-index call arguments of the `setTextures` loop:
`for (i = 0; i < textures.length; ++i) setTexture(i, textures[i], pitchs[i])`
(a missing pitch is JS `undefined`). -/
def callsOf (ts : List (Option Texture)) (ps : List (Option Pitch)) :
    List (Nat × Option Texture × Option Pitch) :=
  (List.range ts.length).map (fun i => (i, ts.getD i none, ps.getD i none))

/-- `setTextures(textures, pitchs)`. -/
def setTextures (h : RasterTile) (ts : List (Option Texture))
    (ps : List (Option Pitch)) : RasterTile :=
  applySets (h.disposeRedrawnTextures ts) (callsOf ts ps)

/-- `sortByValidity` comparator.  A JS `null` entry would throw here
(`null.isTexture`); the model reads it as invalid, which only affects holder
states the theorems below do not rely on. -/
def sortByValidity (a b : Option Texture) : Int :=
  let va := match a with | some t => t.isTexture | none => false
  let vb := match b with | some t => t.isTexture | none => false
  if va = vb then 0 else if va then -1 else 1

/-- `sortByZoom` comparator: zoom descending when both extents exist,
otherwise 0. -/
def sortByZoom (a b : Option Texture) : Int :=
  match a, b with
  | some ta, some tb =>
    match ta.extent, tb.extent with
    | some ea, some eb => eb.zoom - ea.zoom
    | _, _ => 0
  | _, _ => 0

/-- The combined comparator `sortByValidity(a, b) || sortByZoom(a, b)`. -/
def cmpTex (a b : Option Texture) : Int :=
  let v := sortByValidity a b
  if v ≠ 0 then v else sortByZoom a b

/-- `sortBestParentTextures(textures)`:
`textures.toSorted((a, b) => sortByValidity(a, b) || sortByZoom(a, b))`. -/
def sortBestParentTextures (textures : List (Option Texture)) :
    List (Option Texture) :=
  sortCmp cmpTex textures

/-- The `find` of `initFromParent`:
`sortedParentTextures.find(t => t?.extent && childExtent.isInside(t.extent))`. -/
def findMatchingParentTexture (geo : GeoOps) (sorted : List (Option Texture))
    (childExtent : Tile) : Option Texture :=
  match sorted.find? (fun t? =>
    match t? with
    | some t =>
      match t.extent with
      | some e => geo.isInside childExtent e
      | none => false
    | none => false) with
  | some (some t) => some t
  | _ => none

/-- The `(index, texture, offsetScale, childExtent)` arguments of the
successive `setTexture` calls made by the `initFromParent` loop (the running
`index` only advances on a match, exactly as in the source). -/
def initSelections (geo : GeoOps) (sorted : List (Option Texture)) :
    List Tile → Nat → List (Nat × Texture × Pitch × Tile)
  | [], _ => []
  | ce :: rest, index =>
    match findMatchingParentTexture geo sorted ce with
    | some t =>
      match t.extent with
      | some e =>
        (index, t, geo.offsetToParent ce e, ce) ::
          initSelections geo sorted rest (index + 1)
      | none => initSelections geo sorted rest index
    | none => initSelections geo sorted rest index

/-- `initFromParent(parent, extents)`: guarded by
`parent && parent.level > this.level`; for each child extent binds the first
containing texture of the sorted parent textures via `setTexture`. -/
def initFromParent (geo : GeoOps) (h : RasterTile) (parent : Option RasterTile)
    (extents : List Tile) : RasterTile :=
  match parent with
  | some p =>
    if h.level < p.level then
      applySets h
        ((initSelections geo (sortBestParentTextures p.textures) extents 0).map
          (fun s => (s.1, some s.2.1, some s.2.2.1)))
    else h
  | none => h

end RasterTile

/-- A valid texture carrying an extent at zoom `z`. -/
def tex (z : Int) (u : Nat) : Texture := ⟨true, some ⟨z, u⟩⟩

/-- A unit offset/scale. -/
def unitPitch : Pitch := ⟨0, 0, 1, 1⟩

/-- Holder that has installed a valid zoom-5 texture in slot 0. -/
def holder5 : RasterTile :=
  RasterTile.setTexture freshRasterTile 0 (some (tex 5 0)) (some unitPitch)

/-- C1 counterexample: with a valid zoom-5 texture installed in slot 0, a
later `setTexture` with a valid zoom-3 candidate is allowed
(`shouldWriteTextureAtIndex` returns `true`, not `false` as claimed) and
replaces the texture, downgrading `level` from 5 to 3. -/
theorem C1_counterexample :
    holder5.level = 5 ∧
    holder5.shouldWriteTextureAtIndex 0 (some (tex 3 1)) = true ∧
    (holder5.setTexture 0 (some (tex 3 1)) (some unitPitch)).level = 3 ∧
    readSlot (holder5.setTexture 0 (some (tex 3 1)) (some unitPitch)).textures 0
      = some (tex 3 1) := by
  decide

/-- C1 (amended): once any texture occupies a slot, a later `setTexture` with
an empty/invalid candidate (JS `null`/`undefined`, or a no-data placeholder
with `isTexture = false`) never replaces it: `shouldWriteTextureAtIndex`
returns `false` and the holder is left unchanged.  (A *valid* candidate,
however, replaces the slot regardless of its zoom — downgrades are not
prevented, contrary to the original claim.) -/
theorem C1_never_overwrite_valid_with_invalid (h : RasterTile) (i : Nat)
    (t : Texture) (cand : Option Texture) (p : Option Pitch)
    (hslot : readSlot h.textures i = some t)
    (hcand : cand = none ∨ ∃ c, cand = some c ∧ c.isTexture = false) :
    h.shouldWriteTextureAtIndex i cand = false ∧ h.setTexture i cand p = h := by
  have h1 : h.shouldWriteTextureAtIndex i cand = false := by
    rcases hcand with rfl | ⟨c, rfl, hc⟩
    · simp [RasterTile.shouldWriteTextureAtIndex, hslot]
    · simp [RasterTile.shouldWriteTextureAtIndex, hslot, hc]
  exact ⟨h1, by simp [RasterTile.setTexture, h1]⟩

/-- C1 witness: the amended theorem applied to `holder5` and an empty
candidate. -/
theorem C1_witness :
    readSlot holder5.textures 0 = some (tex 5 0) ∧
    (holder5.shouldWriteTextureAtIndex 0 none = false ∧
      holder5.setTexture 0 none none = holder5) :=
  ⟨by decide,
   C1_never_overwrite_valid_with_invalid holder5 0 (tex 5 0) none none
     (by decide) (Or.inl rfl)⟩

/-- Any texture returned by `findMatchingParentTexture` passed the `find`
predicate: it has an extent that contains the child extent. -/
theorem findMatching_spec (geo : GeoOps) (sorted : List (Option Texture))
    (ce : Tile) (t : Texture)
    (hfind : RasterTile.findMatchingParentTexture geo sorted ce = some t) :
    ∃ e, t.extent = some e ∧ geo.isInside ce e = true := by
  unfold RasterTile.findMatchingParentTexture at hfind
  cases hf : sorted.find? (fun t? =>
    match t? with
    | some t =>
      match t.extent with
      | some e => geo.isInside ce e
      | none => false
    | none => false) with
  | none => rw [hf] at hfind; cases hfind
  | some x? =>
    have hp := List.find?_some hf
    rw [hf] at hfind
    cases x? with
    | none => simp at hp
    | some t0 =>
      simp only [Option.some.injEq] at hfind
      subst hfind
      cases he : t0.extent with
      | none => simp [he] at hp
      | some e =>
        simp only [he] at hp
        exact ⟨e, rfl, hp⟩

/-- Concrete geometry instance for witnesses: every extent contains every
other. -/
def geoAll : GeoOps :=
  { isInside := fun _ _ => true, offsetToParent := fun _ _ => unitPitch }

/-- Parent holder owning a single valid zoom-5 texture. -/
def parentHolder : RasterTile :=
  { textures := [some (tex 5 0)], offsetScales := [some unitPitch],
    level := 5, needsUpdate := false }

/-- C4: every texture that `initFromParent` binds to a child slot (i.e. every
`setTexture` call argument it produces, as listed by `initSelections` over
the sorted parent textures) has an extent that fully contains that child's
extent. -/
theorem C4_inheritance_containment (geo : GeoOps) (p : RasterTile)
    (extents : List Tile) (idx i : Nat) (t : Texture) (pc : Pitch) (ce : Tile)
    (hmem : (i, t, pc, ce) ∈ RasterTile.initSelections geo
      (RasterTile.sortBestParentTextures p.textures) extents idx) :
    ∃ e, t.extent = some e ∧ geo.isInside ce e = true := by
  induction extents generalizing idx with
  | nil => simp [RasterTile.initSelections] at hmem
  | cons ce0 rest ih =>
    cases hf : RasterTile.findMatchingParentTexture geo
        (RasterTile.sortBestParentTextures p.textures) ce0 with
    | none =>
      simp only [RasterTile.initSelections, hf] at hmem
      exact ih idx hmem
    | some t0 =>
      cases he : t0.extent with
      | none =>
        simp only [RasterTile.initSelections, hf, he] at hmem
        exact ih idx hmem
      | some e0 =>
        simp only [RasterTile.initSelections, hf, he, List.mem_cons] at hmem
        rcases hmem with heq | hmem
        · simp only [Prod.mk.injEq] at heq
          obtain ⟨-, rfl, -, rfl⟩ := heq
          exact findMatching_spec geo _ _ _ hf
        · exact ih (idx + 1) hmem

/-- C4 witness: the containment theorem applied to a concrete parent holding
one valid zoom-5 texture and one child extent. -/
theorem C4_witness :
    (0, tex 5 0, unitPitch, (⟨9, 9⟩ : Tile)) ∈
      RasterTile.initSelections geoAll
        (RasterTile.sortBestParentTextures parentHolder.textures) [⟨9, 9⟩] 0 ∧
    ∃ e, (tex 5 0).extent = some e ∧ geoAll.isInside ⟨9, 9⟩ e = true :=
  ⟨by decide,
   C4_inheritance_containment geoAll parentHolder [⟨9, 9⟩] 0 0 (tex 5 0)
     unitPitch ⟨9, 9⟩ (by decide)⟩

/-- An entry of a parent's texture array that is non-null and carries an
extent (the shape all real fetched textures have). -/
def hasExtentEntry (x : Option Texture) : Prop :=
  ∃ t e, x = some t ∧ t.extent = some e

/-- Closed form of the combined comparator on entries that carry extents. -/
theorem cmpTex_eq (ta tb : Texture) (ea eb : Tile)
    (ha : ta.extent = some ea) (hb : tb.extent = some eb) :
    RasterTile.cmpTex (some ta) (some tb) =
      if ta.isTexture = tb.isTexture then eb.zoom - ea.zoom
      else if ta.isTexture then -1 else 1 := by
  simp only [RasterTile.cmpTex, RasterTile.sortByValidity, RasterTile.sortByZoom,
    ha, hb]
  rcases Bool.eq_false_or_eq_true ta.isTexture with hta | hta <;>
    rcases Bool.eq_false_or_eq_true tb.isTexture with htb | htb <;>
      simp [hta, htb]

/-- The comparator is antisymmetric on extent-carrying entries. -/
theorem cmpTex_flip (a b : Option Texture) (ha : hasExtentEntry a)
    (hb : hasExtentEntry b) (hge : ¬RasterTile.cmpTex a b < 0) :
    RasterTile.cmpTex b a ≤ 0 := by
  obtain ⟨ta, ea, rfl, hea⟩ := ha
  obtain ⟨tb, eb, rfl, heb⟩ := hb
  rw [cmpTex_eq ta tb ea eb hea heb] at hge
  rw [cmpTex_eq tb ta eb ea heb hea]
  cases hva : ta.isTexture <;> cases hvb : tb.isTexture <;>
    simp [hva, hvb] at hge ⊢ <;> omega

/-- The comparator is transitive on extent-carrying entries. -/
theorem cmpTex_trans (a b c : Option Texture) (ha : hasExtentEntry a)
    (hb : hasExtentEntry b) (hc : hasExtentEntry c)
    (hab : RasterTile.cmpTex a b ≤ 0) (hbc : RasterTile.cmpTex b c ≤ 0) :
    RasterTile.cmpTex a c ≤ 0 := by
  obtain ⟨ta, ea, rfl, hea⟩ := ha
  obtain ⟨tb, eb, rfl, heb⟩ := hb
  obtain ⟨tc, ec, rfl, hec⟩ := hc
  rw [cmpTex_eq ta tb ea eb hea heb] at hab
  rw [cmpTex_eq tb tc eb ec heb hec] at hbc
  rw [cmpTex_eq ta tc ea ec hea hec]
  cases hva : ta.isTexture <;> cases hvb : tb.isTexture <;>
    cases hvc : tc.isTexture <;> simp [hva, hvb, hvc] at hab hbc ⊢ <;> omega

/-- `findMatchingParentTexture` success comes from a `find?` success on the
sorted list. -/
theorem findMatching_eq_find? (geo : GeoOps) (sorted : List (Option Texture))
    (ce : Tile) (t : Texture)
    (hfind : RasterTile.findMatchingParentTexture geo sorted ce = some t) :
    sorted.find? (fun t? =>
      match t? with
      | some t =>
        match t.extent with
        | some e => geo.isInside ce e
        | none => false
      | none => false) = some (some t) := by
  unfold RasterTile.findMatchingParentTexture at hfind
  cases hf : sorted.find? (fun t? =>
    match t? with
    | some t =>
      match t.extent with
      | some e => geo.isInside ce e
      | none => false
    | none => false) with
  | none => rw [hf] at hfind; cases hfind
  | some x? =>
    rw [hf] at hfind
    cases x? with
    | none => cases hfind
    | some t0 =>
      simp only [Option.some.injEq] at hfind
      subst hfind
      rfl

/-- Each selection of the `initFromParent` loop is a
`findMatchingParentTexture` success on its child extent. -/
theorem initSelections_find (geo : GeoOps) (sorted : List (Option Texture))
    (extents : List Tile) (idx i : Nat) (t : Texture) (pc : Pitch) (ce : Tile)
    (hmem : (i, t, pc, ce) ∈ RasterTile.initSelections geo sorted extents idx) :
    RasterTile.findMatchingParentTexture geo sorted ce = some t := by
  induction extents generalizing idx with
  | nil => simp [RasterTile.initSelections] at hmem
  | cons ce0 rest ih =>
    cases hf : RasterTile.findMatchingParentTexture geo sorted ce0 with
    | none =>
      simp only [RasterTile.initSelections, hf] at hmem
      exact ih idx hmem
    | some t0 =>
      cases he : t0.extent with
      | none =>
        simp only [RasterTile.initSelections, hf, he] at hmem
        exact ih idx hmem
      | some e0 =>
        simp only [RasterTile.initSelections, hf, he, List.mem_cons] at hmem
        rcases hmem with heq | hmem
        · simp only [Prod.mk.injEq] at heq
          obtain ⟨-, rfl, -, rfl⟩ := heq
          exact hf
        · exact ih (idx + 1) hmem

/-- The texture chosen by the find-on-sorted step is optimal: if any valid
extent-carrying parent texture contains the child, the chosen texture is
valid and of maximal zoom among such textures. -/
theorem chosen_best (geo : GeoOps) (textures : List (Option Texture))
    (ce : Tile) (t : Texture)
    (HX : ∀ x ∈ textures, hasExtentEntry x)
    (hf : RasterTile.findMatchingParentTexture geo
      (RasterTile.sortBestParentTextures textures) ce = some t) :
    ∃ e, t.extent = some e ∧ geo.isInside ce e = true ∧
      ∀ u? ∈ textures, ∀ u eu, u? = some u → u.extent = some eu →
        u.isTexture = true → geo.isInside ce eu = true →
        t.isTexture = true ∧ eu.zoom ≤ e.zoom := by
  obtain ⟨e, he, hin⟩ := findMatching_spec geo _ ce t hf
  refine ⟨e, he, hin, ?_⟩
  intro u? hu? u eu hu heu huv huin
  subst hu
  have hfind := findMatching_eq_find? geo _ ce t hf
  have hsortedP : ∀ x ∈ RasterTile.sortBestParentTextures textures,
      hasExtentEntry x := by
    intro x hx
    exact HX x ((mem_sortCmp RasterTile.cmpTex textures x).mp hx)
  have hpw : (RasterTile.sortBestParentTextures textures).Pairwise
      (fun a b => RasterTile.cmpTex a b ≤ 0) :=
    pairwise_sortCmp RasterTile.cmpTex hasExtentEntry cmpTex_flip cmpTex_trans
      textures HX
  have humem : some u ∈ RasterTile.sortBestParentTextures textures :=
    (mem_sortCmp RasterTile.cmpTex textures (some u)).mpr hu?
  have hpu : (fun t? =>
      match t? with
      | some t =>
        match t.extent with
        | some e => geo.isInside ce e
        | none => false
      | none => false) (some u) = true := by
    simp only [heu]
    exact huin
  have hrel := find?_first (fun a b => RasterTile.cmpTex a b ≤ 0) _ (some t)
    (RasterTile.sortBestParentTextures textures) hpw hfind (some u) humem hpu
  rcases hrel with heq | hle
  · simp only [Option.some.injEq] at heq
    subst heq
    rw [he] at heu
    simp only [Option.some.injEq] at heu
    subst heu
    exact ⟨huv, le_refl _⟩
  · rw [cmpTex_eq t u e eu he heu] at hle
    by_cases hv : t.isTexture = u.isTexture
    · rw [huv] at hv
      refine ⟨hv, ?_⟩
      rw [if_pos (by rw [hv, huv])] at hle
      omega
    · rw [if_neg hv] at hle
      by_cases ht : t.isTexture = true
      · exact absurd (by rw [ht, huv]) hv
      · rw [if_neg ht] at hle
        omega

/-- C5: `initFromParent` does nothing without a parent or unless
`parent.level > this.level`; and, when every parent texture entry is non-null
and carries an extent, every texture it binds to a child extent is the first
containing texture of the validity-then-zoom-descending order — in
particular, whenever some valid containing texture exists, the bound texture
is valid and of maximal zoom among the valid containing ones. -/
theorem C5_best_parent_selection (geo : GeoOps) (h p : RasterTile)
    (extents : List Tile) :
    (RasterTile.initFromParent geo h none extents = h) ∧
    (p.level ≤ h.level → RasterTile.initFromParent geo h (some p) extents = h) ∧
    ((∀ x ∈ p.textures, hasExtentEntry x) →
      ∀ i t pc ce, (i, t, pc, ce) ∈ RasterTile.initSelections geo
          (RasterTile.sortBestParentTextures p.textures) extents 0 →
        ∃ e, t.extent = some e ∧ geo.isInside ce e = true ∧
          ∀ u? ∈ p.textures, ∀ u eu, u? = some u → u.extent = some eu →
            u.isTexture = true → geo.isInside ce eu = true →
            t.isTexture = true ∧ eu.zoom ≤ e.zoom) := by
  refine ⟨rfl, ?_, ?_⟩
  · intro hle
    simp [RasterTile.initFromParent, not_lt.mpr hle]
  · intro HX i t pc ce hmem
    exact chosen_best geo p.textures ce t HX
      (initSelections_find geo _ extents 0 i t pc ce hmem)

/-- Parent holder with a valid zoom-3 texture listed before a valid zoom-5
texture (so the sort has to reorder them). -/
def parentHolder2 : RasterTile :=
  { textures := [some (tex 3 1), some (tex 5 0)],
    offsetScales := [some unitPitch, some unitPitch],
    level := 7, needsUpdate := false }

/-- C5 witness: the selection theorem at a concrete parent whose unsorted
texture list starts with the lower-zoom texture; the zoom-5 texture is chosen
and dominates. -/
theorem C5_witness :
    RasterTile.initFromParent geoAll freshRasterTile none [⟨9, 9⟩]
      = freshRasterTile ∧
    ∃ e, (tex 5 0).extent = some e ∧ geoAll.isInside ⟨9, 9⟩ e = true ∧
      ∀ u? ∈ parentHolder2.textures, ∀ u eu, u? = some u → u.extent = some eu →
        u.isTexture = true → geoAll.isInside ⟨9, 9⟩ eu = true →
        (tex 5 0).isTexture = true ∧ eu.zoom ≤ e.zoom :=
  ⟨(C5_best_parent_selection geoAll freshRasterTile parentHolder2 [⟨9, 9⟩]).1,
   (C5_best_parent_selection geoAll freshRasterTile parentHolder2 [⟨9, 9⟩]).2.2
     (by
       intro x hx
       simp only [parentHolder2, List.mem_cons, List.not_mem_nil, or_false]
         at hx
       rcases hx with rfl | rfl
       · exact ⟨tex 3 1, ⟨3, 1⟩, rfl, rfl⟩
       · exact ⟨tex 5 0, ⟨5, 0⟩, rfl, rfl⟩)
     0 (tex 5 0) unitPitch ⟨9, 9⟩ (by decide)⟩

/-! ### C6 — evolution of `level` across holder operations -/

/-- Last element of an install log, or the empty sentinel. -/
def lastD (log : List Int) : Int :=
  log.getLast?.getD EMPTY_TEXTURE_ZOOM

theorem lastD_concat (log : List Int) (z : Int) : lastD (log ++ [z]) = z := by
  simp [lastD]

/-- The zoom recorded by one `setTexture` call: present exactly when the
write happens and the written texture carries an extent. -/
def writeRec (h : RasterTile) (i : Nat) (t : Option Texture) : List Int :=
  if h.shouldWriteTextureAtIndex i t then
    match t with
    | some tt =>
      match tt.extent with
      | some e => [e.zoom]
      | none => []
    | none => []
  else []

theorem setTexture_level (h : RasterTile) (i : Nat) (t : Option Texture)
    (p : Option Pitch) (log : List Int) (hinv : h.level = lastD log) :
    (h.setTexture i t p).level = lastD (log ++ writeRec h i t) := by
  unfold RasterTile.setTexture writeRec
  by_cases hw : h.shouldWriteTextureAtIndex i t = true
  · rw [if_pos hw, if_pos hw]
    cases t with
    | none => simpa using hinv
    | some tt =>
      cases he : tt.extent with
      | none => simp only [he]; simpa using hinv
      | some e => simp only [he]; simp [lastD_concat]
  · rw [if_neg hw, if_neg hw]
    simpa using hinv

/-- The zooms recorded by a sequence of `setTexture` calls. -/
def setsWrites (h : RasterTile) :
    List (Nat × Option Texture × Option Pitch) → List Int
  | [] => []
  | c :: cs => writeRec h c.1 c.2.1 ++ setsWrites (h.setTexture c.1 c.2.1 c.2.2) cs

theorem applySets_level (cs : List (Nat × Option Texture × Option Pitch)) :
    ∀ (h : RasterTile) (log : List Int), h.level = lastD log →
      (RasterTile.applySets h cs).level = lastD (log ++ setsWrites h cs) := by
  induction cs with
  | nil =>
    intro h log hinv
    simpa [RasterTile.applySets, setsWrites] using hinv
  | cons c cs ih =>
    intro h log hinv
    simp only [RasterTile.applySets, setsWrites, ← List.append_assoc]
    exact ih _ _ (setTexture_level h c.1 c.2.1 c.2.2 log hinv)

/-- Operations a `RasterTile` holder undergoes during its lifetime. -/
inductive RTOp where
  | setT (i : Nat) (t : Option Texture) (p : Option Pitch)
  | setTs (ts : List (Option Texture)) (ps : List (Option Pitch))
  | initP (parent : Option RasterTile) (extents : List Tile)
  | disp
deriving DecidableEq

/-- Interpretation of one operation by the RasterTile methods. -/
def applyOp (geo : GeoOps) (h : RasterTile) : RTOp → RasterTile
  | .setT i t p => h.setTexture i t p
  | .setTs ts ps => h.setTextures ts ps
  | .initP parent extents => RasterTile.initFromParent geo h parent extents
  | .disp => h.dispose

/-- Does this operation restart the install history?  `dispose` clears the
holder; `setTextures` clears it first when every incoming texture would be
written (`disposeRedrawnTextures` disposing the whole tile). -/
def opClearsLog (h : RasterTile) : RTOp → Bool
  | .setTs ts _ => decide ((h.validTextureIndexes ts).length = ts.length)
  | .disp => true
  | _ => false

/-- The zooms of the textures an operation actually installs (in call
order). -/
def opWrites (geo : GeoOps) (h : RasterTile) : RTOp → List Int
  | .setT i t _ => writeRec h i t
  | .setTs ts ps =>
    setsWrites (h.disposeRedrawnTextures ts) (RasterTile.callsOf ts ps)
  | .initP parent extents =>
    match parent with
    | some p =>
      if h.level < p.level then
        setsWrites h
          ((RasterTile.initSelections geo
              (RasterTile.sortBestParentTextures p.textures) extents 0).map
            (fun s => (s.1, some s.2.1, some s.2.2.1)))
      else []
    | none => []
  | .disp => []

/-- One step of the holder together with its install log. -/
def stepLog (geo : GeoOps) (st : RasterTile × List Int) (op : RTOp) :
    RasterTile × List Int :=
  (applyOp geo st.1 op,
   (if opClearsLog st.1 op then [] else st.2) ++ opWrites geo st.1 op)

theorem stepLog_inv (geo : GeoOps) (st : RasterTile × List Int) (op : RTOp)
    (hinv : st.1.level = lastD st.2) :
    (stepLog geo st op).1.level = lastD (stepLog geo st op).2 := by
  obtain ⟨h, log⟩ := st
  cases op with
  | setT i t p =>
    simpa [stepLog, applyOp, opClearsLog, opWrites] using
      setTexture_level h i t p log hinv
  | setTs ts ps =>
    simp only [stepLog, applyOp, opClearsLog, opWrites,
      RasterTile.setTextures, RasterTile.disposeRedrawnTextures]
    by_cases hc : (h.validTextureIndexes ts).length = ts.length
    · have h1 := applySets_level (RasterTile.callsOf ts ps) h.dispose []
        (by simp [RasterTile.dispose, lastD, EMPTY_TEXTURE_ZOOM])
      simpa [hc] using h1
    · have h1 := applySets_level (RasterTile.callsOf ts ps) h.disposeAtIndexes
        log (by simpa [RasterTile.disposeAtIndexes] using hinv)
      simpa [hc] using h1
  | initP parent extents =>
    cases parent with
    | none => simpa [stepLog, applyOp, opClearsLog, opWrites,
        RasterTile.initFromParent] using hinv
    | some p =>
      simp only [stepLog, applyOp, opClearsLog, opWrites,
        RasterTile.initFromParent]
      by_cases hl : h.level < p.level
      · rw [if_pos hl, if_pos hl]
        simp only [Bool.false_eq_true, if_false]
        exact applySets_level _ _ log hinv
      · rw [if_neg hl, if_neg hl]
        simpa using hinv
  | disp =>
    simp [stepLog, applyOp, opClearsLog, opWrites, RasterTile.dispose, lastD,
      EMPTY_TEXTURE_ZOOM]

/-- C6 (amended): after any sequence of `setTexture` / `setTextures` /
`initFromParent` / `dispose` operations starting from a fresh holder, `level`
equals the extent zoom of the most recently installed extent-carrying
texture since the last history reset (a full `dispose`, including the
whole-tile disposal inside `setTextures`), or the `EMPTY_TEXTURE_ZOOM`
sentinel when no such install happened — not the maximum zoom among the
currently held textures. -/
theorem C6_level_tracks_last_install (geo : GeoOps) (ops : List RTOp) :
    (ops.foldl (stepLog geo) (freshRasterTile, [])).1
      = ops.foldl (applyOp geo) freshRasterTile ∧
    (ops.foldl (stepLog geo) (freshRasterTile, [])).1.level
      = lastD (ops.foldl (stepLog geo) (freshRasterTile, [])).2 := by
  constructor
  · suffices hgen : ∀ (st : RasterTile × List Int),
        (ops.foldl (stepLog geo) st).1 = ops.foldl (applyOp geo) st.1 from
      hgen (freshRasterTile, [])
    induction ops with
    | nil => intro st; rfl
    | cons op rest ih =>
      intro st
      simpa [List.foldl_cons, stepLog] using ih (stepLog geo st op)
  · suffices hgen : ∀ (st : RasterTile × List Int), st.1.level = lastD st.2 →
        (ops.foldl (stepLog geo) st).1.level
          = lastD (ops.foldl (stepLog geo) st).2 from
      hgen (freshRasterTile, []) (by simp [freshRasterTile, lastD])
    induction ops with
    | nil => intro st hst; simpa using hst
    | cons op rest ih =>
      intro st hst
      exact ih (stepLog geo st op) (stepLog_inv geo st op hst)

/-- The zoom levels of the extent-carrying textures currently held (the
claimed interpretation of the invariant), folded through `max` from the
sentinel. -/
def maxHeldZoom (h : RasterTile) : Int :=
  (h.textures.filterMap (fun t? => t?.bind (fun t => t.extent.map Tile.zoom))
    ).foldl max EMPTY_TEXTURE_ZOOM

/-- Holder that installed a valid zoom-5 texture at slot 0 and then a valid
zoom-3 texture at slot 1. -/
def holder53 : RasterTile :=
  holder5.setTexture 1 (some (tex 3 1)) (some unitPitch)

/-- C6 counterexample: after installing a zoom-5 texture at slot 0 and a
zoom-3 texture at slot 1, the holder holds textures (so the sentinel case
does not apply), the maximum held zoom is 5, but `level` is 3. -/
theorem C6_counterexample :
    holder53.textures ≠ [] ∧ maxHeldZoom holder53 = 5 ∧ holder53.level = 3 ∧
      holder53.level ≠ maxHeldZoom holder53 := by
  decide

/-! ### Layer.ts — `getData` and its cache

Source: `packages/Main/src/Layer/RasterLayer.ts` (`Layer.getData`,
lines 342-353).  The cache stores the promise of the converted result; the
model's `V` is that promise value, `loadData`/`convert` are the layer's
external collaborators, and a load counter records how often
`source.loadData` runs.  TTL/LRU eviction is not exercised between the two
calls (the claim requires the first result to still be cached). -/

/-- The `source` collaborators `getData` uses. -/
structure SourceL (K V : Type) where
  isVectorSource : Bool
  getDataKey : K → String
  loadData : K → V

/-- A layer as seen by `getData`. -/
structure LayerL (K V : Type) where
  source : SourceL K V
  convert : V → V

/-- The layer's cache plus an instrumentation counter of `loadData` calls. -/
structure CacheState (V : Type) where
  entries : List (String × V)
  loadCalls : Nat
deriving DecidableEq

/-- `cache.get(key)`. -/
def cacheGet {V : Type} (c : CacheState V) (k : String) : Option V :=
  (c.entries.find? (fun e => decide (e.1 = k))).map (fun e => e.2)

/-- `getData(from, to)` (RasterLayer.ts lines 342-353): derive the key, hit
the cache, otherwise chain `loadData`/`convert` and store the resulting
promise. -/
def getData {K V : Type} (layer : LayerL K V) (st : CacheState V)
    (fromK toK : K) : V × CacheState V :=
  let key := layer.source.getDataKey
    (if layer.source.isVectorSource then toK else fromK)
  match cacheGet st key with
  | some data => (data, st)
  | none =>
    let data := layer.convert (layer.source.loadData fromK)
    (data,
     { entries := (key, data) :: st.entries, loadCalls := st.loadCalls + 1 })

/-- C3: two `getData` calls whose derived keys coincide, the second issued
while the first result is still cached, trigger exactly one
`source.loadData` call and return the same stored value. -/
theorem C3_cache_dedup {K V : Type} (layer : LayerL K V) (st0 : CacheState V)
    (f1 t1 f2 t2 : K)
    (hkey : layer.source.getDataKey
        (if layer.source.isVectorSource then t2 else f2)
      = layer.source.getDataKey
        (if layer.source.isVectorSource then t1 else f1))
    (hmiss : cacheGet st0 (layer.source.getDataKey
        (if layer.source.isVectorSource then t1 else f1)) = none) :
    (getData layer (getData layer st0 f1 t1).2 f2 t2).1
      = (getData layer st0 f1 t1).1 ∧
    (getData layer (getData layer st0 f1 t1).2 f2 t2).2.loadCalls
      = st0.loadCalls + 1 := by
  have h1 : getData layer st0 f1 t1 =
      (layer.convert (layer.source.loadData f1),
       { entries := (layer.source.getDataKey
             (if layer.source.isVectorSource then t1 else f1),
           layer.convert (layer.source.loadData f1)) :: st0.entries,
         loadCalls := st0.loadCalls + 1 }) := by
    simp [getData, hmiss]
  rw [h1]
  simp [getData, cacheGet, hkey]

/-- Concrete layer for the C3 witness. -/
def layerN : LayerL Nat Nat :=
  { source := { isVectorSource := false, getDataKey := fun _ => "k",
                loadData := fun n => n },
    convert := fun v => v + 1 }

/-- C3 witness: the dedup theorem at a concrete layer and an empty cache. -/
theorem C3_witness :
    (getData layerN (getData layerN ⟨[], 0⟩ 0 0).2 0 0).1
      = (getData layerN ⟨[], 0⟩ 0 0).1 ∧
    (getData layerN (getData layerN ⟨[], 0⟩ 0 0).2 0 0).2.loadCalls = 0 + 1 :=
  C3_cache_dedup layerN ⟨[], 0⟩ 0 0 0 0 rfl rfl

/-! ### ElevationTextureUtils.ts

Source: `packages/Main/src/Utils/ElevationTextureUtils.ts`.  Elevation
samples are rationals; JS `undefined` is `none`; the special values
`Infinity`, `-Infinity` and `NaN` that flow through `min`/`max` in
`computeMinMaxElevation` are made explicit in the `XRat` type.  Only the
`DataTexture` reading branch is modelled (the canvas-based image branch is
out of the model's scope; `computeMinMaxElevation` itself only reads raw
`texture.image.data`). -/

/-- One pixel read `data[i] > noDataValue` of
`checkNodeElevationTextureValidity`; a JS out-of-range read gives
`undefined`, and `undefined > x` is false. -/
def cornerGt (data : List ℚ) (i : Nat) (noDataValue : ℚ) : Bool :=
  match data.get? i with
  | some v => decide (noDataValue < v)
  | none => false

/-- `checkNodeElevationTextureValidity(data, noDataValue)`: the four corners
`data[0]`, `data[l-1]`, `data[sqrt(l)-1]`, `data[l-sqrt(l)]` must all exceed
the no-data value.  `Math.sqrt` is exact on the perfect-square lengths of
elevation textures; it is modelled by `Nat.sqrt`. -/
def checkNodeElevationTextureValidity (data : List ℚ) (noDataValue : ℚ) :
    Bool :=
  let l := data.length
  cornerGt data 0 noDataValue &&
    cornerGt data (l - 1) noDataValue &&
    cornerGt data (Nat.sqrt l - 1) noDataValue &&
    cornerGt data (l - Nat.sqrt l) noDataValue

/-- `insertSignificantValuesFromParent(data, dataParent = i => 0,
noDataValue)`: replaces every no-data entry by the parent lookup (or the 0
default). -/
def insertSignificantValuesFromParent (data : List ℚ)
    (dataParent : Nat → ℚ := fun _ => 0) (noDataValue : ℚ) : List ℚ :=
  data.enum.map (fun p => if p.2 = noDataValue then dataParent p.1 else p.2)

/-- C9: on a texture whose four sampled corners are `[-9999, 5, 7, -9999]`
with `noDataValue = -9999`, validity checking fails, and the parent-fill with
the default (no parent data) replaces exactly the `-9999` entries by 0. -/
theorem C9_nodata_scenario :
    checkNodeElevationTextureValidity [-9999, 5, 7, -9999] (-9999) = false ∧
    insertSignificantValuesFromParent [-9999, 5, 7, -9999] (fun _ => 0) (-9999)
      = [0, 5, 7, 0] := by
  decide

/-- JS numbers as they flow through `computeMinMaxElevation`: finite values,
the two infinities used as fold seeds, and the `NaN` produced by
`Math.max(x, undefined)`. -/
inductive XRat where
  | negInf
  | fin (q : ℚ)
  | posInf
  | nan
deriving DecidableEq

/-- JS `<` on these values (`NaN` compares false with everything). -/
def XRat.lt : XRat → XRat → Bool
  | .nan, _ => false
  | _, .nan => false
  | .negInf, .negInf => false
  | .negInf, _ => true
  | _, .negInf => false
  | .fin a, .fin b => decide (a < b)
  | .fin _, .posInf => true
  | .posInf, _ => false

/-- JS `<=` (used only to state the claim). -/
def XRat.le : XRat → XRat → Bool
  | .nan, _ => false
  | _, .nan => false
  | .negInf, _ => true
  | _, .negInf => false
  | .fin a, .fin b => decide (a ≤ b)
  | .fin _, .posInf => true
  | .posInf, .fin _ => false
  | .posInf, .posInf => true

/-- JS `Math.max` (NaN-propagating). -/
def XRat.jmax : XRat → XRat → XRat
  | .nan, _ => .nan
  | _, .nan => .nan
  | .negInf, b => b
  | a, .negInf => a
  | .posInf, _ => .posInf
  | _, .posInf => .posInf
  | .fin a, .fin b => .fin (max a b)

/-- JS `Math.min` (NaN-propagating). -/
def XRat.jmin : XRat → XRat → XRat
  | .nan, _ => .nan
  | _, .nan => .nan
  | .posInf, b => b
  | a, .posInf => a
  | .negInf, _ => .negInf
  | _, .negInf => .negInf
  | .fin a, .fin b => .fin (min a b)

/-- The raw image of a data texture: dimensions plus the sample array. -/
structure DataImg where
  width : Nat
  height : Nat
  data : List ℚ

/-- The `options`/`metadata` record of `computeMinMaxElevation`. -/
structure ElevOptions where
  noDataValue : ℚ
  zmin : Option ℚ
  zmax : Option ℚ

/-- `MathUtils.clamp(value, min, max) = Math.max(min, Math.min(max, value))`
on integers (pixel indices). -/
def clampI (value lo hi : Int) : Int :=
  max lo (min hi value)

/-- `readDataTextureValueAt`: reads `data[p.y * width + p.x]`, replacing the
no-data value (and a JS `undefined` out-of-range read) by `none`. -/
def readDataTextureValueAt (img : DataImg) (noDataValue : ℚ)
    (pixels : List (Int × Int)) : List (Option ℚ) :=
  pixels.map (fun p =>
    match img.data.get? (p.2 * (img.width : Int) + p.1).toNat with
    | some v => if v = noDataValue then none else some v
    | none => none)

/-- `readTextureValueAt` (data-texture branch): clamps each pixel into the
image bounds, then reads. -/
def readTextureValueAt (img : DataImg) (noDataValue : ℚ)
    (pixels : List (Int × Int)) : List (Option ℚ) :=
  readDataTextureValueAt img noDataValue
    (pixels.map (fun p =>
      (clampI p.1 0 ((img.width : Int) - 1),
       clampI p.2 0 ((img.height : Int) - 1))))

/-- The pixel coordinates computed by `convertUVtoPixelCoords`. -/
structure UVCoords where
  u1 : Int
  u2 : Int
  v1 : Int
  v2 : Int
  wu : ℚ
  wv : ℚ

/-- `convertUVtoPixelCoords(texture, u, v)`. -/
def convertUVtoPixelCoords (img : DataImg) (u v : ℚ) : UVCoords :=
  let up := max 0 (u * img.width - 1/2)
  let vp := max 0 (v * img.height - 1/2)
  { u1 := up.floor, u2 := up.ceil, v1 := vp.floor, v2 := vp.ceil,
    wu := up - (up.floor : ℚ), wv := vp - (vp.floor : ℚ) }

/-- `MathUtils.lerp(x, y, t) = (1 - t) * x + t * y`. -/
def lerp (x y t : ℚ) : ℚ :=
  (1 - t) * x + t * y

/-- `lerpWithUndefinedCheck`. -/
def lerpWithUndefinedCheck (x y : Option ℚ) (t : ℚ) : Option ℚ :=
  match x with
  | none => y
  | some a =>
    match y with
    | none => some a
    | some b => some (lerp a b t)

/-- `readTextureValueWithBilinearFiltering` (data-texture branch).  The
four-sample read always returns four entries; any other shape maps to
`undefined`. -/
def readTextureValueWithBilinearFiltering (img : DataImg) (noDataValue : ℚ)
    (u v : ℚ) : Option ℚ :=
  let c := convertUVtoPixelCoords img u v
  match readTextureValueAt img noDataValue
      [(c.u1, c.v1), (c.u2, c.v1), (c.u1, c.v2), (c.u2, c.v2)] with
  | [z11, z21, z12, z22] =>
    lerpWithUndefinedCheck
      (lerpWithUndefinedCheck z11 z21 c.wu)
      (lerpWithUndefinedCheck z12 z22 c.wu)
      c.wv
  | _ => none

/-- `minMax4Corners(texture, pitch, options)`: bilinear reads at the four
pitch corners, filtered of undefined; empty gives the
`(Infinity, -Infinity)` seed. -/
def minMax4Corners (img : DataImg) (pitch : Pitch) (options : ElevOptions) :
    XRat × XRat :=
  let u := pitch.x
  let v := pitch.y
  let w := pitch.z
  let z := [readTextureValueWithBilinearFiltering img options.noDataValue u v,
            readTextureValueWithBilinearFiltering img options.noDataValue
              (u + w) v,
            readTextureValueWithBilinearFiltering img options.noDataValue
              (u + w) (v + w),
            readTextureValueWithBilinearFiltering img options.noDataValue u
              (v + w)].filterMap id
  match z with
  | [] => (XRat.posInf, XRat.negInf)
  | q :: qs =>
    (XRat.fin (qs.foldl min q), XRat.fin (qs.foldl max q))

/-- Inner x-sweep of the interior sampling loop of `computeMinMaxElevation`:
`for (x = pit + xs; x < limX; x += inc)` with `Math.max`/`Math.min` updates
(an out-of-range read is `undefined`, and `Math.max(x, undefined)` is
`NaN`). -/
def scanRow (data : List ℚ) (noDataValue : ℚ) (start inc : Int)
    (count : Nat) (mm : XRat × XRat) : XRat × XRat :=
  (List.range count).foldl
    (fun acc k =>
      let x := start + inc * k
      match data.get? x.toNat with
      | some val =>
        if val = noDataValue then acc
        else (acc.1.jmin (XRat.fin val), acc.2.jmax (XRat.fin val))
      | none => (XRat.nan, XRat.nan))
    mm

/-- Number of iterations of a JS loop `for (i = start; i < lim; i += inc)`
with positive `inc`. -/
def stepCount (start lim inc : Int) : Nat :=
  (((lim - start) + inc - 1) / inc).toNat

/-- `computeMinMaxElevation(texture, pitch, options)` over the raw data
image: the four-corner pass, the coarse interior grid when the pitched width
exceeds 2 texels, the `zmin`/`zmax` clamps, and the final incoherence check.
The source's inner loop bound reuses the name `limX` for both loops and uses
`pitch.z` for both axes; the model follows the code. -/
def computeMinMaxElevation (img : Option DataImg) (pitch : Pitch)
    (options : ElevOptions) : Option (XRat × XRat) :=
  match img with
  | none => none
  | some img =>
    let mm0 := minMax4Corners img pitch options
    let sizeX : Int := (pitch.z * img.width).floor
    let mm1 :=
      if 2 < sizeX then
        let sizeY : Int := (pitch.z * img.height).floor
        let xs : Int := (pitch.x * img.width).floor
        let ys : Int := (pitch.y * img.height).floor
        let inc : Int := max (sizeX / 32) 2
        (List.range (stepCount ys (ys + sizeY) inc)).foldl
          (fun acc j =>
            let y := ys + inc * j
            let pit := y * (img.width : Int)
            scanRow img.data options.noDataValue (pit + xs) inc
              (stepCount (pit + xs) (pit + xs + sizeX) inc) acc)
          mm0
      else mm0
    let mm2 :=
      match options.zmin with
      | some zmin =>
        let mn := if mm1.1.lt (XRat.fin zmin) then XRat.fin zmin else mm1.1
        let mx := if mm1.2.lt (XRat.fin zmin) then XRat.fin zmin else mm1.2
        (mn, mx)
      | none => mm1
    let mm3 :=
      match options.zmax with
      | some zmax =>
        let mn := if (XRat.fin zmax).lt mm2.1 then XRat.fin zmax else mm2.1
        let mx := if (XRat.fin zmax).lt mm2.2 then XRat.fin zmax else mm2.2
        (mn, mx)
      | none => mm2
    if mm3.2 = XRat.negInf ∨ mm3.1 = XRat.posInf then none
    else some mm3

/-- A 2×2 data texture whose every sample is the no-data value. -/
def allNoData2x2 : DataImg :=
  { width := 2, height := 2, data := [-9999, -9999, -9999, -9999] }

/-- C10: on a texture whose every sampled value equals `noDataValue`, with
both `zmin = 0` and `zmax = 100` clamps configured, `computeMinMaxElevation`
neither returns the null pair nor a pair with `min ≤ max`: the clamps turn
the `(Infinity, -Infinity)` seed into `min = 100 > max = 0`, defeating the
final incoherence check. -/
theorem C10_min_max_violation :
    computeMinMaxElevation (some allNoData2x2) ⟨0, 0, 1, 1⟩
        { noDataValue := -9999, zmin := some 0, zmax := some 100 }
      = some (XRat.fin 100, XRat.fin 0) ∧
    XRat.le (XRat.fin 100) (XRat.fin 0) = false := by
  decide

/-! ### Feature2Texture.ts — command construction and early-drop

Source: `packages/Main/src/Converter/Feature2Texture.ts`
(`materialCommandQueuePriorityFunction`, `refinementCommandCancellationFn`,
`buildCommand`).  Node/material/layer state is read at evaluation time and
is modelled by the value it has then. -/

/-- The elevation raster tile a material may hold
(`material.getElevationTile()`). -/
structure ElevTile where
  level : Int
deriving DecidableEq

/-- A node's material as read by the cancellation function. -/
structure MaterialF2T where
  visible : Bool
  elevationTile : Option ElevTile
deriving DecidableEq

/-- The requester node as read by the cancellation function:
`parent` presence, `material`, and whether `layerUpdateState[layer.id]` is
still set. -/
structure NodeF2T where
  hasParent : Bool
  material : Option MaterialF2T
  layerUpdateStateHas : Bool
deriving DecidableEq

/-- The layer as read by the cancellation function, including whether
`layer.source._featuresCaches[layer.crs]` is still set. -/
structure LayerF2T where
  isElevationLayer : Bool
  featuresCacheHas : Bool
deriving DecidableEq

/-- The command object `buildCommand` creates.  Extents are reduced to their
zooms.  Note the object has no `targetLevel` property: `targetLevel` is
`none` (JS `undefined`) unless someone sets it. -/
structure Command where
  layer : LayerF2T
  extentsSource : List Int
  extentsDestination : List Int
  requester : NodeF2T
  priority : Int
  targetLevel : Option Int
  partialLoading : Bool
deriving DecidableEq

/-- `materialCommandQueuePriorityFunction(material)`. -/
def materialCommandQueuePriorityFunction (m : MaterialF2T) : Int :=
  if m.visible then 100 else 10

/-- `refinementCommandCancellationFn(cmd)`.  The comparison
`cmd.targetLevel <= level` with a missing `targetLevel` is the JS comparison
with `undefined`, which is false. -/
def refinementCommandCancellationFn (cmd : Command) : Bool :=
  match cmd.requester.material with
  | none => true
  | some m =>
    if !cmd.requester.hasParent then true
    else if cmd.layer.isElevationLayer &&
        (match m.elevationTile with
         | some et =>
           match cmd.targetLevel with
           | some t => decide (t ≤ et.level)
           | none => false
         | none => false) then true
    else if !cmd.requester.layerUpdateStateHas || !cmd.layer.featuresCacheHas
      then true
    else !m.visible

/-- `buildCommand(view, layer, extentsSource, extentsDestination, requester)`
(the `view` argument carries no model content).  It never sets
`targetLevel`. -/
def buildCommand (layer : LayerF2T) (extentsSource extentsDestination : List Int)
    (requester : NodeF2T) : Command :=
  { layer := layer
    extentsSource := extentsSource
    extentsDestination := extentsDestination
    requester := requester
    priority :=
      match requester.material with
      | some m => materialCommandQueuePriorityFunction m
      | none => 0
    targetLevel := none
    partialLoading := true }

/-- The level a command would deliver — the zoom of its source extents
(`extentsSource` is built as `extentsDestination.map(e =>
e.tiledExtentParent(targetLevel))` in `updateLayeredMaterialNodeImagery`, so
its zoom is the requested target level). -/
def deliveredLevel (cmd : Command) : Int :=
  cmd.extentsSource.head?.getD 0

/-- A node already holding elevation data at level 10. -/
def supersededNode : NodeF2T :=
  { hasParent := true,
    material := some { visible := true, elevationTile := some ⟨10⟩ },
    layerUpdateStateHas := true }

/-- An elevation layer whose feature cache is still alive. -/
def elevLayerF2T : LayerF2T :=
  { isElevationLayer := true, featuresCacheHas := true }

/-- A command built by `buildCommand` that would deliver level 8 to
`supersededNode`. -/
def supersededCmd : Command :=
  buildCommand elevLayerF2T [8] [8] supersededNode

/-- C8: for a command built by `buildCommand` for an elevation layer whose
requester already holds elevation data at level 10 ≥ the level 8 this
command would deliver (claim condition (b)), while (a), (c), (d) are all
false, the cancellation function nevertheless returns `false`: `buildCommand`
never sets `cmd.targetLevel`, and the JS comparison `undefined <= level` is
false, so the supersession branch can never fire. -/
theorem C8_supersession_never_fires :
    supersededCmd.layer.isElevationLayer = true ∧
    supersededCmd.requester.material
      = some { visible := true, elevationTile := some ⟨10⟩ } ∧
    deliveredLevel supersededCmd = 8 ∧ (8 : Int) ≤ 10 ∧
    supersededCmd.requester.hasParent = true ∧
    supersededCmd.requester.layerUpdateStateHas = true ∧
    supersededCmd.layer.featuresCacheHas = true ∧
    supersededCmd.targetLevel = none ∧
    refinementCommandCancellationFn supersededCmd = false := by
  decide

/-! ### Feature2Texture.ts — `updateLayeredMaterialNodeImagery`

The per-(node, layer) update entry point (lines 269-398).  The class
`LayerUpdateState` itself is not part of the sources (only this caller is);
it is modelled from the spec, §4.3.  External collaborators
(`getExtentsByProjection`, `setupRasterNode`+`initFromParent`,
`chooseNextLevelToFetch`) are abstract parameters.  The asynchronous
completion handler of `scheduler.execute` is outside this synchronous
model; the outcome records whether a command was built and `newTry`
called. -/

/-- Modelled from the spec: the states of the per-(node, layer) update state
machine (`LayerUpdateState`, not under the sources).  The transient
outcome states collapse back to eligibility, so eligibility (`IDLE`),
`PENDING` and the terminal `DEFINITIVE` remain. -/
inductive LUState where
  | IDLE
  | PENDING
  | DEFINITIVE
deriving DecidableEq

/-- Modelled from the spec: `LayerUpdateState` — the state plus the recorded
`failureParams.lowestLevelError` (`none` models the `Infinity` default of no
recorded failure). -/
structure LayerUpdateState where
  state : LUState
  lowestLevelError : Option Int
deriving DecidableEq

namespace LayerUpdateState

/-- `new LayerUpdateState()`. -/
def init : LayerUpdateState := ⟨.IDLE, none⟩

/-- Modelled from the spec: `canTryUpdate()` is false while `PENDING` and
false once `DEFINITIVE`. -/
def canTryUpdate (s : LayerUpdateState) : Bool :=
  decide (s.state = .IDLE)

/-- `newTry()`. -/
def newTry (s : LayerUpdateState) : LayerUpdateState :=
  { s with state := .PENDING }

/-- `noMoreUpdatePossible()`. -/
def noMoreUpdatePossible (s : LayerUpdateState) : LayerUpdateState :=
  { s with state := .DEFINITIVE }

/-- Modelled from the spec: `noData(params)` records a structurally-absent
level and returns to eligibility. -/
def noData (s : LayerUpdateState) : LayerUpdateState :=
  { s with state := .IDLE }

end LayerUpdateState

/-- The layer's source as read by the update function: `extentInsideLimit`
is specialised to the node's fixed extent (its remaining argument is the
zoom). -/
structure SourceU where
  extentInsideLimit : Int → Bool
  zoomMin : ℚ
  isVectorSource : Bool

/-- The layer as read by the update function.  `zoomMax = none` models the
`Infinity` default. -/
structure LayerU where
  visible : Bool
  frozen : Bool
  zoomMin : ℚ
  zoomMax : Option ℚ
  noTextureParentOutsideLimit : Bool
  source : SourceU

/-- The raster tile of a material (`material.getTile(layer.id)`) reduced to
its level. -/
structure TileLevel where
  level : Int
deriving DecidableEq

/-- The node's material. -/
structure MaterialU where
  visible : Bool
  tile : Option TileLevel
deriving DecidableEq

/-- The node: its material, its `layerUpdateState[layer.id]` entry and its
own level (the `destinationLevel` fallback). -/
structure NodeU where
  material : Option MaterialU
  lus : Option LayerUpdateState
  level : Int
deriving DecidableEq

/-- The parent's material as probed by the init branch
(`parent.material && parent.material.getTile &&
parent.material.getTile(layer.id)`). -/
structure ParentMatU where
  hasGetTile : Bool
  tile : Option TileLevel
deriving DecidableEq

/-- The parent node. -/
structure ParentU where
  material : Option ParentMatU
deriving DecidableEq

/-- External collaborators of the update function:
the zooms of `node.getExtentsByProjection(layer.crs)`, the level the raster
node has after `setupRasterNode` + `initFromParent`, and
`chooseNextLevelToFetch` reduced to (destinationLevel, currentLevel,
lowestLevelError) ↦ targetLevel. -/
structure UpdateEnv where
  extentsDestinationZooms : List Int
  setupLevel : Int
  choose : Int → Int → Option Int → Int

/-- What one synchronous invocation did. -/
structure UpdateOutcome where
  newTryCalled : Bool
  commandBuilt : Bool
  lus : Option LayerUpdateState
  notified : Bool
deriving DecidableEq

/-- The common continuation after the initialisation block (from
`if (!material.visible)` on).  Reading `nodeLayer.level` with no raster tile
is the JS `undefined.level` TypeError. -/
def updateTail (env : UpdateEnv) (layer : LayerU) (node : NodeU)
    (material : MaterialU) (lus : LayerUpdateState)
    (nodeLayer? : Option TileLevel) (zoom : Int) :
    Except Unit UpdateOutcome :=
  if !material.visible then .ok ⟨false, false, some lus, false⟩
  else if !layer.visible || !lus.canTryUpdate then
    .ok ⟨false, false, some lus, false⟩
  else
    match nodeLayer? with
    | none => .error ()
    | some nodeLayer =>
      if decide (zoom ≤ nodeLayer.level) then
        .ok ⟨false, false, some lus.noMoreUpdatePossible, false⟩
      else if layer.frozen then .ok ⟨false, false, some lus, false⟩
      else
        let failureParams := lus.lowestLevelError
        let destinationLevel := if zoom = 0 then node.level else zoom
        let targetLevel := env.choose destinationLevel nodeLayer.level
          failureParams
        if (!layer.source.isVectorSource &&
              decide (targetLevel ≤ nodeLayer.level)) ||
            decide (destinationLevel < targetLevel) then
          if failureParams.isSome then
            .ok ⟨false, false, some lus.noMoreUpdatePossible, false⟩
          else .ok ⟨false, false, some lus, false⟩
        else if !(layer.source.extentInsideLimit targetLevel) then
          .ok ⟨false, false, some lus.noData, true⟩
        else
          .ok ⟨true, true, some lus.newTry, false⟩

/-- `updateLayeredMaterialNodeImagery(context, layer, node, parent)`. -/
def updateLayeredMaterialNodeImagery (env : UpdateEnv) (layer : LayerU)
    (node : NodeU) (parent : Option ParentU) : Except Unit UpdateOutcome :=
  match parent, node.material with
  | none, _ => .ok ⟨false, false, node.lus, false⟩
  | some _, none => .ok ⟨false, false, node.lus, false⟩
  | some par, some material =>
    match env.extentsDestinationZooms.head? with
    | none => .error ()
    | some zoom =>
      if (match layer.zoomMax with
          | some m => decide (m < (zoom : ℚ))
          | none => false) ||
          decide ((zoom : ℚ) < layer.zoomMin) then
        .ok ⟨false, false, node.lus, false⟩
      else
        let nodeLayer := material.tile
        match node.lus with
        | none =>
          let lus0 := LayerUpdateState.init
          if !(layer.source.extentInsideLimit zoom) &&
              !(!layer.noTextureParentOutsideLimit &&
                (match par.material with
                 | some pm => pm.hasGetTile && pm.tile.isSome
                 | none => false)) then
            .ok ⟨false, false, some lus0.noMoreUpdatePossible, false⟩
          else
            let nodeLayer1 :=
              match nodeLayer with
              | some nl => nl
              | none => ⟨env.setupLevel⟩
            if decide (layer.source.zoomMin ≤ (nodeLayer1.level : ℚ)) then
              .ok ⟨false, false, some lus0, true⟩
            else
              updateTail env layer node material lus0 (some nodeLayer1) zoom
        | some lus0 =>
          updateTail env layer node material lus0 nodeLayer zoom

/-- The command-built flag of an invocation (an exception builds none). -/
def commandBuiltE (r : Except Unit UpdateOutcome) : Bool :=
  match r with
  | .ok o => o.commandBuilt
  | .error _ => false

/-- The `newTry`-called flag of an invocation. -/
def newTryCalledE (r : Except Unit UpdateOutcome) : Bool :=
  match r with
  | .ok o => o.newTryCalled
  | .error _ => false

/-- C2: while `canTryUpdate()` is false for the (node, layer) pair (state
`PENDING` or `DEFINITIVE`), an invocation of
`updateLayeredMaterialNodeImagery` never builds a command and never calls
`newTry()` — so a second in-flight cycle is never started. -/
theorem updateTail_no_command (env : UpdateEnv) (layer : LayerU)
    (node : NodeU) (material : MaterialU) (lus : LayerUpdateState)
    (nodeLayer? : Option TileLevel) (zoom : Int)
    (hcan : lus.canTryUpdate = false) :
    commandBuiltE (updateTail env layer node material lus nodeLayer? zoom)
      = false ∧
    newTryCalledE (updateTail env layer node material lus nodeLayer? zoom)
      = false := by
  unfold updateTail
  by_cases hv : material.visible = true
  · simp [hv, hcan, commandBuiltE, newTryCalledE]
  · simp [hv, commandBuiltE, newTryCalledE]

theorem C2_no_second_command (env : UpdateEnv) (layer : LayerU) (node : NodeU)
    (parent : Option ParentU) (s : LayerUpdateState)
    (hs : node.lus = some s) (hcan : s.canTryUpdate = false) :
    commandBuiltE (updateLayeredMaterialNodeImagery env layer node parent)
      = false ∧
    newTryCalledE (updateLayeredMaterialNodeImagery env layer node parent)
      = false := by
  unfold updateLayeredMaterialNodeImagery
  cases parent with
  | none => simp [commandBuiltE, newTryCalledE]
  | some par =>
    cases hm : node.material with
    | none => simp [commandBuiltE, newTryCalledE]
    | some material =>
      simp only [hm]
      cases hz : env.extentsDestinationZooms.head? with
      | none => simp [commandBuiltE, newTryCalledE]
      | some zoom =>
        simp only [hz, hs]
        split
        · simp [commandBuiltE, newTryCalledE]
        · exact updateTail_no_command env layer node material s material.tile
            zoom hcan

/-- A pending update state. -/
def pendingState : LayerUpdateState := ⟨.PENDING, none⟩

/-- Concrete environment for the C2 witness. -/
def envW : UpdateEnv :=
  { extentsDestinationZooms := [12], setupLevel := -1,
    choose := fun destination current _ => min (current + 1) destination }

/-- Concrete layer for the C2 witness. -/
def layerW : LayerU :=
  { visible := true, frozen := false, zoomMin := 0, zoomMax := none,
    noTextureParentOutsideLimit := false,
    source := { extentInsideLimit := fun _ => true, zoomMin := 0,
                isVectorSource := false } }

/-- Concrete node with an in-flight (PENDING) update for the C2 witness. -/
def nodeW : NodeU :=
  { material := some { visible := true, tile := some ⟨5⟩ },
    lus := some pendingState, level := 12 }

/-- C2 witness: a visible node with a `PENDING` state issues no second
command. -/
theorem C2_witness :
    nodeW.lus = some pendingState ∧
    pendingState.canTryUpdate = false ∧
    commandBuiltE (updateLayeredMaterialNodeImagery envW layerW nodeW
      (some { material := none })) = false ∧
    newTryCalledE (updateLayeredMaterialNodeImagery envW layerW nodeW
      (some { material := none })) = false :=
  ⟨rfl, by decide,
   (C2_no_second_command envW layerW nodeW (some { material := none })
     pendingState rfl (by decide)).1,
   (C2_no_second_command envW layerW nodeW (some { material := none })
     pendingState rfl (by decide)).2⟩

/-! ### TileGrid.ts — `getInfoTms`, `getCountTiles`, `tiledCovering`

Source: `src/Core/Geographic/TileGrid.ts`.  The `Extent`/`Coordinates`/`CRS`
classes live in the `@itowns/geographic` package (not under the sources);
their operations used here (`planarDimensions`, `center`, `clampByExtent`,
`clampSouthNorth`, `as`-conversion, `formatToEPSG`, `formatToTms`) are
modelled from the spec (axis-aligned rectangles in a named CRS; conversion
is an abstract total map).  JS numbers are rationals; `Math.log2` of a
non-positive rounded argument (JS `-Infinity`/`NaN`, arising only for
degenerate dimensions) is collapsed to 0 — every JS path still returns, so
totality is unaffected.  Accessing a property of `undefined` (the unknown-CRS
path of `getInfoTms`, or a missing tile scheme) models as `Except.error`. -/

/-- An extent value: a named CRS, bounds, and the optional tile zoom. -/
structure ExtentG where
  crs : String
  west : ℚ
  east : ℚ
  south : ℚ
  north : ℚ
  zoom : Option Int
deriving DecidableEq

/-- A tile-matrix cell `new Extent(tms, zoom, row, col)`. -/
structure TiledCell where
  tms : String
  zoom : Int
  row : Int
  col : Int
deriving DecidableEq

/-- Modelled from the spec: `Extent.planarDimensions` — width and height of
the rectangle. -/
def planarDimensions (e : ExtentG) : ℚ × ℚ :=
  (e.east - e.west, e.north - e.south)

/-- Modelled from the spec: `Extent.center`. -/
def extentCenter (e : ExtentG) : ℚ × ℚ :=
  ((e.west + e.east) / 2, (e.south + e.north) / 2)

/-- Modelled from the spec: `Extent.clampByExtent` — clamp into the global
extent. -/
def clampByExtent (e g : ExtentG) : ExtentG :=
  { e with west := max e.west g.west, east := min e.east g.east,
           south := max e.south g.south, north := min e.north g.north }

/-- Modelled from the spec: `Extent.clampSouthNorth`. -/
def clampSouthNorth (e : ExtentG) (s n : ℚ) : ExtentG :=
  { e with south := max e.south s, north := min e.north n }

/-- The record `getInfoTms` returns. -/
structure InfoTms where
  epsg : String
  globalExtent : ExtentG
  globalDimension : ℚ × ℚ
  sTs : Option (ℚ × ℚ)
  isInverted : Bool

/-- The process-wide tile-grid environment: the CRS formatting helpers of
the geographic package (modelled from the spec), the `as`-conversion, and
the two module-level maps `globalExtentTMS` / `schemeTiles`. -/
structure TileGridEnv where
  formatToEPSG : String → String
  formatToTms : String → String
  tms3857 : String
  conv : ExtentG → String → ExtentG
  globalExtentTMS : List (String × ExtentG)
  schemeTiles : List (String × (ℚ × ℚ))

/-- `Map.get` on an association list. -/
def lookupByKey {β : Type} (l : List (String × β)) (k : String) : Option β :=
  (l.find? (fun p => decide (p.1 = k))).map (fun p => p.2)

/-- `getInfoTms(crs)`: fetching the global extent of an unregistered EPSG
code leaves `globalExtent` undefined and the following
`planarDimensions` call throws — the error case.  The scheme is
`schemeTiles.get(tms) || schemeTiles.get('default')`. -/
def getInfoTms (env : TileGridEnv) (crs : String) : Except Unit InfoTms :=
  let epsg := env.formatToEPSG crs
  match lookupByKey env.globalExtentTMS epsg with
  | none => .error ()
  | some globalExtent =>
    let tms := env.formatToTms crs
    let sTs :=
      match lookupByKey env.schemeTiles tms with
      | some v => some v
      | none => lookupByKey env.schemeTiles "default"
    .ok { epsg := epsg, globalExtent := globalExtent,
          globalDimension := planarDimensions globalExtent, sTs := sTs,
          isInverted := !decide ((tms.splitOn ":NI").length > 1) }

/-- `getCountTiles(crs, zoom)`: `2^zoom` times the scheme tile counts; a
missing scheme would make `multiply` throw. -/
def getCountTiles (env : TileGridEnv) (crs : String) (zoom : Int) :
    Except Unit (ℚ × ℚ) :=
  match (match lookupByKey env.schemeTiles (env.formatToTms crs) with
         | some v => some v
         | none => lookupByKey env.schemeTiles "default") with
  | none => .error ()
  | some sTs =>
    let count : ℚ := (2 : ℚ) ^ zoom
    .ok (count * sTs.1, count * sTs.2)

/-- `Math.round` (half toward +∞). -/
def jsRoundQ (q : ℚ) : Int :=
  (q + 1/2).floor

/-- Fuel-bounded binary logarithm on naturals. -/
def log2Aux : Nat → Nat → Nat
  | 0, _ => 0
  | fuel + 1, n => if 2 ≤ n then log2Aux fuel (n / 2) + 1 else 0

/-- `Math.floor(Math.log2(q))` for the (integral) rounded arguments the
covering math produces; non-positive arguments (JS `-Infinity`/`NaN` zoom,
reachable only with degenerate dimensions, where JS still returns) collapse
to 0. -/
def jsLog2Floor (q : ℚ) : Int :=
  if 1 ≤ q then (log2Aux q.floor.toNat q.floor.toNat : Int) else 0

/-- `tiledCovering(e, tms)` (TileGrid.ts lines 47-89): the geodetic →
web-mercator fast path with its closed-form row range, and the general
single-cell path. -/
def tiledCovering (env : TileGridEnv) (e : ExtentG) (tms : String) :
    Except Unit (List TiledCell) :=
  if e.crs = "EPSG:4326" && tms = env.tms3857 then
    let extent0 := env.conv e (env.formatToEPSG tms)
    match getInfoTms env (env.formatToEPSG tms) with
    | .error u => .error u
    | .ok info =>
      match info.sTs with
      | none => .error ()
      | some sTs =>
        let extent := clampByExtent extent0 info.globalExtent
        let dims := planarDimensions extent
        let zoom : Int :=
          match e.zoom with
          | some z =>
            if z + 1 ≠ 0 then z + 1
            else jsLog2Floor
              ((jsRoundQ (info.globalDimension.1 / (dims.1 * sTs.1)) : Int) : ℚ)
          | none => jsLog2Floor
              ((jsRoundQ (info.globalDimension.1 / (dims.1 * sTs.1)) : Int) : ℚ)
        match getCountTiles env tms zoom with
        | .error u => .error u
        | .ok countTiles =>
          let c := extentCenter extent
          let tx : Int :=
            ((c.1 - info.globalExtent.west) / info.globalDimension.1
              * countTiles.1).floor
          let ty : Int :=
            ((info.globalExtent.north - extent.north) / info.globalDimension.2
              * countTiles.2).floor
          let maxRow : Int :=
            ((info.globalExtent.north - extent.south) / info.globalDimension.1
              * countTiles.2).ceil - 1
          let rows := (List.range (maxRow - ty + 1).toNat).map
            (fun k => maxRow - k)
          .ok (rows.map (fun r =>
            { tms := tms, zoom := zoom, row := r, col := tx }))
  else
    match getInfoTms env e.crs with
    | .error u => .error u
    | .ok info =>
      match info.sTs with
      | none => .error ()
      | some sTs =>
        let c := extentCenter e
        let dims := planarDimensions e
        let zoom : Int := jsLog2Floor
          ((jsRoundQ (info.globalDimension.1 / (dims.1 * sTs.1)) : Int) : ℚ)
        match getCountTiles env tms zoom with
        | .error u => .error u
        | .ok countTiles =>
          let tx : Int :=
            ((c.1 - info.globalExtent.west) / info.globalDimension.1
              * countTiles.1).floor
          let ty : Int :=
            (((if info.isInverted then info.globalExtent.north - c.2
               else c.2 - info.globalExtent.south)) / info.globalDimension.2
              * countTiles.2).floor
          .ok [{ tms := tms, zoom := zoom, row := ty, col := tx }]

theorem getInfoTms_ok (env : TileGridEnv) (crs : String)
    (h : (lookupByKey env.globalExtentTMS (env.formatToEPSG crs)).isSome)
    (hd : (lookupByKey env.schemeTiles "default").isSome) :
    ∃ info, getInfoTms env crs = .ok info ∧ info.sTs.isSome := by
  obtain ⟨g, hg⟩ := Option.isSome_iff_exists.mp h
  unfold getInfoTms
  simp only [hg]
  refine ⟨_, rfl, ?_⟩
  cases hl : lookupByKey env.schemeTiles (env.formatToTms crs) with
  | some v => simp [hl]
  | none => simpa [hl] using hd

theorem getCountTiles_ok (env : TileGridEnv) (crs : String) (zoom : Int)
    (hd : (lookupByKey env.schemeTiles "default").isSome) :
    ∃ ct, getCountTiles env crs zoom = .ok ct := by
  unfold getCountTiles
  cases hl : lookupByKey env.schemeTiles (env.formatToTms crs) with
  | some v => simp only [hl]; exact ⟨_, rfl⟩
  | none =>
    obtain ⟨d, hdv⟩ := Option.isSome_iff_exists.mp hd
    simp only [hl, hdv]
    exact ⟨_, rfl⟩

theorem countMatch_ok (env : TileGridEnv) (tms : String) (zoom : Int)
    (f : ℚ × ℚ → List TiledCell)
    (hd : (lookupByKey env.schemeTiles "default").isSome) :
    ∃ cells, (match getCountTiles env tms zoom with
              | .error u => Except.error u
              | .ok ct => Except.ok (f ct)) = Except.ok cells := by
  obtain ⟨ct, hct⟩ := getCountTiles_ok env tms zoom hd
  simp only [hct]
  exact ⟨_, rfl⟩

/-- C7 (amended): for every extent with finite rational bounds whose CRS —
and the target TMS — resolve to EPSG codes registered in `globalExtentTMS`,
and with the `default` tile scheme registered (as the module initialisation
guarantees), `tiledCovering` returns normally with a (possibly empty or
clamped) list of cells.  For an unregistered CRS it throws instead (see the
counterexample), contrary to the original claim. -/
theorem C7_registered_covering_total (env : TileGridEnv) (e : ExtentG)
    (tms : String)
    (h1 : (lookupByKey env.globalExtentTMS
      (env.formatToEPSG (env.formatToEPSG tms))).isSome)
    (h2 : (lookupByKey env.globalExtentTMS (env.formatToEPSG e.crs)).isSome)
    (hd : (lookupByKey env.schemeTiles "default").isSome) :
    ∃ cells, tiledCovering env e tms = .ok cells := by
  unfold tiledCovering
  split
  · obtain ⟨info, hinfo, hsts⟩ := getInfoTms_ok env (env.formatToEPSG tms)
      h1 hd
    obtain ⟨sTs, hsv⟩ := Option.isSome_iff_exists.mp hsts
    simp only [hinfo, hsv]
    exact countMatch_ok env tms _ _ hd
  · obtain ⟨info, hinfo, hsts⟩ := getInfoTms_ok env e.crs h2 hd
    obtain ⟨sTs, hsv⟩ := Option.isSome_iff_exists.mp hsts
    simp only [hinfo, hsv]
    exact countMatch_ok env tms _ _ hd

/-- A concrete `as`-conversion that only relabels the CRS (sufficient for
instantiating the parametric theorems). -/
def idConv (e : ExtentG) (crs : String) : ExtentG :=
  { e with crs := crs }

/-- The global geodetic extent registered by the TileGrid module init. -/
def extent4326 : ExtentG :=
  { crs := "EPSG:4326", west := -180, east := 180, south := -90, north := 90,
    zoom := none }

/-- The tile-grid environment as the module initialisation of TileGrid.ts
builds it (globalExtent registrations for EPSG:4326 and EPSG:3857 — the
latter converted then squared by `clampSouthNorth` — and the `default`,
`TMS:3857` and `TMS:4326` tile schemes), over a given conversion.  The CRS
formatting helpers are modelled from the spec: they translate between the
`TMS:`-prefixed tile-matrix-set names and their EPSG codes. -/
def mkEnv (conv : ExtentG → String → ExtentG) : TileGridEnv :=
  let e3857raw := conv extent4326 "EPSG:3857"
  let extent3857 := clampSouthNorth e3857raw e3857raw.west e3857raw.east
  { formatToEPSG := fun s =>
      if s = "TMS:4326" then "EPSG:4326"
      else if s = "TMS:3857" then "EPSG:3857" else s
    formatToTms := fun s =>
      if s = "EPSG:4326" then "TMS:4326"
      else if s = "EPSG:3857" then "TMS:3857" else s
    tms3857 := "TMS:3857"
    conv := conv
    globalExtentTMS := [("EPSG:4326", extent4326), ("EPSG:3857", extent3857)]
    schemeTiles := [("default", (1, 1)), ("TMS:3857", (1, 1)),
                    ("TMS:4326", (2, 1))] }

/-- C7 counterexample: an extent in the unregistered CRS `EPSG:9999` makes
`tiledCovering` throw (the `globalExtentTMS` lookup in `getInfoTms` yields
`undefined` and the `planarDimensions` access on it is a TypeError) instead
of returning a degenerate covering. -/
theorem C7_counterexample :
    tiledCovering (mkEnv idConv)
      { crs := "EPSG:9999", west := 0, east := 1, south := 0, north := 1,
        zoom := none }
      "TMS:9999" = .error () := by
  rfl

/-- Geodetic extent with a tile zoom, for the C7 witness. -/
def extentW : ExtentG :=
  { crs := "EPSG:4326", west := 0, east := 1, south := 0, north := 1,
    zoom := some 2 }

/-- C7 witness: the amended totality theorem applied to the initialised
environment, a geodetic extent and the web-mercator TMS. -/
theorem C7_witness :
    (lookupByKey (mkEnv idConv).globalExtentTMS
      ((mkEnv idConv).formatToEPSG
        ((mkEnv idConv).formatToEPSG "TMS:3857"))).isSome = true ∧
    (lookupByKey (mkEnv idConv).globalExtentTMS
      ((mkEnv idConv).formatToEPSG extentW.crs)).isSome = true ∧
    (lookupByKey (mkEnv idConv).schemeTiles "default").isSome = true ∧
    ∃ cells, tiledCovering (mkEnv idConv) extentW "TMS:3857"
      = Except.ok cells :=
  ⟨by rfl, by rfl, by rfl,
   C7_registered_covering_total (mkEnv idConv) extentW "TMS:3857"
     (by rfl) (by rfl) (by rfl)⟩

end Itowns
